import Mathlib

/-!
Verification development for the photo-album EXIF fixer.

The development shallowly embeds the date logic of
`src/lib/services/albums.ts` and `src/lib/services/exif.ts`, the album
analysis of `src/routes/main/+page.svelte`, the photo page status logic of
`src/routes/album/[name]/+page.svelte`, and the album cache
(`albumStore`).  JavaScript `Date` values are modelled as records of their
normalised components (what the `get*` accessors return), local time with a
fixed UTC offset and no DST; `getTime` is the linearisation of those
components into epoch milliseconds.
-/

namespace PhotoFixer

/-- Proleptic Gregorian leap-year rule, as used by ECMAScript `Date`. -/
def isLeap (y : Int) : Bool :=
  (y % 4 == 0 && y % 100 != 0) || (y % 400 == 0)

/-- Leap-day contribution of year `y` (1 on leap years, 0 otherwise). -/
def febExtra (y : Int) : Int := if isLeap y then 1 else 0

/-- Number of days of the 0-based month `m0` of year `y` (the ECMAScript
month table, 29 days in a leap February; arguments outside `[0, 11]` are
clamped to December's 31). -/
def dim0 (y m0 : Int) : Int :=
  if m0 = 0 then 31
  else if m0 = 1 then 28 + febExtra y
  else if m0 = 2 then 31
  else if m0 = 3 then 30
  else if m0 = 4 then 31
  else if m0 = 5 then 30
  else if m0 = 6 then 31
  else if m0 = 7 then 31
  else if m0 = 8 then 30
  else if m0 = 9 then 31
  else if m0 = 10 then 30
  else 31

/-- Days of year `y` that precede the first day of its 0-based month `m0`
(cumulative month lengths). -/
def daysBeforeMonth (y m0 : Int) : Int :=
  if m0 ≤ 0 then 0
  else if m0 = 1 then 31
  else if m0 = 2 then 59 + febExtra y
  else if m0 = 3 then 90 + febExtra y
  else if m0 = 4 then 120 + febExtra y
  else if m0 = 5 then 151 + febExtra y
  else if m0 = 6 then 181 + febExtra y
  else if m0 = 7 then 212 + febExtra y
  else if m0 = 8 then 243 + febExtra y
  else if m0 = 9 then 273 + febExtra y
  else if m0 = 10 then 304 + febExtra y
  else 334 + febExtra y

/-- Number of leap years `k` with `0 ≤ k < y` (counted negatively when
`y < 0`), in closed form via ceiling divisions. -/
def leapsBefore (y : Int) : Int :=
  (y + 3) / 4 - (y + 99) / 100 + (y + 399) / 400

/-- Absolute day number of the civil date (`y`, 0-based month `m0`, day `d`),
counted from 0000-01-01. -/
def civilDays (y m0 d : Int) : Int :=
  365 * y + leapsBefore y + daysBeforeMonth y m0 + (d - 1)

/-- Day number of the Unix epoch 1970-01-01 in the `civilDays` scale. -/
def epochCivilDays : Int := civilDays 1970 0 1

/-- Model of a JavaScript `Date`: the components its accessors
(`getFullYear`, `getMonth`, `getDate`, `getHours`, ...) return.  `month` is
0-based, exactly as `getMonth()`. -/
structure JSDate where
  year : Int
  month : Int
  day : Int
  hours : Int
  minutes : Int
  seconds : Int
  ms : Int
deriving DecidableEq, Repr

/-- Epoch day number of a date's calendar-date projection. -/
def JSDate.epochDay (t : JSDate) : Int :=
  civilDays t.year t.month t.day - epochCivilDays

/-- Milliseconds into the local day. -/
def JSDate.timeOfDayMs (t : JSDate) : Int :=
  t.hours * 3600000 + t.minutes * 60000 + t.seconds * 1000 + t.ms

/-- Model of `Date.prototype.getTime`: epoch milliseconds of the
component tuple (fixed-offset local time). -/
def JSDate.getTime (t : JSDate) : Int :=
  t.epochDay * 86400000 + t.timeOfDayMs

/-- A component record is in the normalised ranges JavaScript `Date`
accessors guarantee: this holds of every actual `Date` value. -/
def JSDate.Valid (t : JSDate) : Prop :=
  0 ≤ t.month ∧ t.month ≤ 11 ∧
  1 ≤ t.day ∧ t.day ≤ dim0 t.year t.month ∧
  0 ≤ t.hours ∧ t.hours ≤ 23 ∧
  0 ≤ t.minutes ∧ t.minutes ≤ 59 ∧
  0 ≤ t.seconds ∧ t.seconds ≤ 59 ∧
  0 ≤ t.ms ∧ t.ms ≤ 999

instance (t : JSDate) : Decidable t.Valid := by
  unfold JSDate.Valid; infer_instance

/-- Day-of-month normalisation by repeated month carries and borrows.  This
computes the civil date of `civilDays y m0 1 + (d - 1)` (the ECMAScript
`MakeDay` value) whenever the fuel covers the number of carries; fuel 24 is
ample for every construction in this repository (0-based month already in
`[0, 11]`, day field in `[0, 99]` from two regex digit captures, plus at
most one extra day of time overflow). -/
def dayCarry : Nat → Int → Int → Int → Int × Int × Int
  | 0, y, m0, d => (y, m0, d)
  | Nat.succ fuel, y, m0, d =>
    if d < 1 then
      (if m0 = 0 then dayCarry fuel (y - 1) 11 (d + 31)
       else dayCarry fuel y (m0 - 1) (d + dim0 y (m0 - 1)))
    else if d ≤ dim0 y m0 then (y, m0, d)
    else if m0 = 11 then dayCarry fuel (y + 1) 0 (d - 31)
    else dayCarry fuel y (m0 + 1) (d - dim0 y m0)

/-- Model of the ECMAScript component constructor
`new Date(year, monthIndex, day, hours, minutes, seconds, ms)` in local
time: years 0-99 map to 1900-1999, the month index is folded into the year
by floored division (all month indices arising here are nonnegative, where
Euclidean and floored division agree), overflowing time is folded into the
day and the day is normalised by `dayCarry`. -/
def jsMakeDate (y mo d h mi s msArg : Int) : JSDate :=
  let yr := if 0 ≤ y ∧ y ≤ 99 then 1900 + y else y
  let totalMs := h * 3600000 + mi * 60000 + s * 1000 + msArg
  let extraDays := totalMs / 86400000
  let tod := totalMs % 86400000
  let y1 := yr + mo / 12
  let m1 := mo % 12
  let norm := dayCarry 24 y1 m1 (d + extraDays)
  { year := norm.1
    month := norm.2.1
    day := norm.2.2
    hours := tod / 3600000
    minutes := tod % 3600000 / 60000
    seconds := tod % 60000 / 1000
    ms := tod % 1000 }

/-- Strict lexicographic order of the calendar-date projections of two
date values: the model of "chronologically earlier day". -/
def calLt (a b : JSDate) : Prop :=
  a.year < b.year ∨
    (a.year = b.year ∧ (a.month < b.month ∨ (a.month = b.month ∧ a.day < b.day)))

/-- Equality of calendar-date projections. -/
def calEq (a b : JSDate) : Prop :=
  a.year = b.year ∧ a.month = b.month ∧ a.day = b.day

instance (a b : JSDate) : Decidable (calLt a b) := by
  unfold calLt; infer_instance

instance (a b : JSDate) : Decidable (calEq a b) := by
  unfold calEq; infer_instance

/-- Numeric value of a digit character. -/
def digitVal (c : Char) : Nat := c.toNat - 48

/-- Value of a most-significant-first digit string, the model of
`parseInt(s, 10)` on all-digit strings. -/
def digitsToNat (cs : List Char) : Nat :=
  cs.foldl (fun a c => a * 10 + digitVal c) 0

/-- Result record of `parseAlbumDate` in `src/lib/services/albums.ts`. -/
structure AlbumDateParse where
  date : Option JSDate
  dateString : Option (List Char)
  isValid : Bool
deriving DecidableEq, Repr

/-- Model of `parseAlbumDate(albumName)`: match `^(\d{8})` (eight leading
digits; further digits may follow), split into year/month/day, range-check
them, build `new Date(year, month - 1, day)` and re-verify the constructed
date's components against the parsed numbers. -/
def parseAlbumDate (albumName : List Char) : AlbumDateParse :=
  let head8 := albumName.take 8
  if head8.length = 8 ∧ head8.all Char.isDigit then
    let year : Int := digitsToNat (head8.take 4)
    let month : Int := digitsToNat ((head8.drop 4).take 2)
    let day : Int := digitsToNat (head8.drop 6)
    if year < 1900 ∨ year > 2100 ∨ month < 1 ∨ month > 12 ∨ day < 1 ∨ day > 31 then
      ⟨none, some head8, false⟩
    else
      let date := jsMakeDate year (month - 1) day 0 0 0 0
      if date.year ≠ year ∨ date.month ≠ month - 1 ∨ date.day ≠ day then
        ⟨none, some head8, false⟩
      else
        ⟨some date, some head8, true⟩
  else
    ⟨none, none, false⟩

/-- Model of `datesMatch(date1, date2)`: date-only component equality,
false when either side is null. -/
def datesMatch (date1 date2 : Option JSDate) : Bool :=
  match date1, date2 with
  | some a, some b => a.year == b.year && a.month == b.month && a.day == b.day
  | _, _ => false

/-- Result type of `categorizePhotoDate`. -/
inductive PhotoDateCategory where
  | correct
  | futureDate
  | pastDate
  | missingExif
deriving DecidableEq, Repr

/-- Model of `categorizePhotoDate(albumDate, photoDate)`: missing date,
exact date-only match, else a full `getTime` comparison of the two
timestamps. -/
def categorizePhotoDate (albumDate : JSDate) (photoDate : Option JSDate) :
    PhotoDateCategory :=
  match photoDate with
  | none => .missingExif
  | some p =>
    if datesMatch (some albumDate) (some p) then .correct
    else if p.getTime > albumDate.getTime then .futureDate
    else .pastDate

/-- Model of `createTargetDate(albumDate, existingExifDate)`: copy the album
date and `setHours` either the existing time of day or 12:00:00.000.  The
`setHours` arguments come from `get*` accessors (hence are in their
normalised ranges), so no rollover into the calendar date occurs. -/
def createTargetDate (albumDate : JSDate) (existingExifDate : Option JSDate) :
    JSDate :=
  match existingExifDate with
  | some e =>
    { albumDate with hours := e.hours, minutes := e.minutes,
                     seconds := e.seconds, ms := e.ms }
  | none =>
    { albumDate with hours := 12, minutes := 0, seconds := 0, ms := 0 }

/-- Album severity from the main page analysis. -/
inductive Severity where
  | good
  | warning
  | error
deriving DecidableEq, Repr

/-- The `photoStatus` accumulator of `analyzeAlbumExifStatus` on the main
page (counts, extreme capture dates, maximal day gaps per direction and
the final severity). -/
structure PhotoStatusAgg where
  correct : Nat
  earlierCount : Nat
  laterCount : Nat
  missingExif : Nat
  unsupported : Nat
  totalAnalyzed : Nat
  earliestExifDate : Option JSDate
  latestExifDate : Option JSDate
  maxEarlierDays : Int
  maxLaterDays : Int
  severity : Severity
deriving DecidableEq, Repr

/-- The `daysBetween` helper of `analyzeAlbumExifStatus`: `Math.round` of
the millisecond difference of the two date-only projections.  Both
projections are local midnights, so the quotient is an exact integer and
equals the difference of epoch day numbers. -/
def daysBetween (a b : JSDate) : Int := a.epochDay - b.epochDay

/-- One iteration of the `for (const fileHandle of allFiles)` loop of
`analyzeAlbumExifStatus`: classify the photo's best EXIF date and update
the accumulator.  A photo whose read throws is modelled as `none`, which
the loop counts as `missingExif` exactly like a decodable photo without a
date. -/
def analyzeStep (albumDate : JSDate) (st : PhotoStatusAgg)
    (exifDate : Option JSDate) : PhotoStatusAgg :=
  match categorizePhotoDate albumDate exifDate with
  | .correct => { st with correct := st.correct + 1 }
  | .futureDate =>
    match exifDate with
    | some e =>
      { st with
        laterCount := st.laterCount + 1
        latestExifDate :=
          match st.latestExifDate with
          | none => some e
          | some l => if e.getTime > l.getTime then some e else some l
        maxLaterDays := max st.maxLaterDays |daysBetween e albumDate| }
    | none => st
  | .pastDate =>
    match exifDate with
    | some e =>
      { st with
        earlierCount := st.earlierCount + 1
        earliestExifDate :=
          match st.earliestExifDate with
          | none => some e
          | some l => if e.getTime < l.getTime then some e else some l
        maxEarlierDays := max st.maxEarlierDays |daysBetween albumDate e| }
    | none => st
  | .missingExif => { st with missingExif := st.missingExif + 1 }

/-- Model of `analyzeAlbumExifStatus(album, allFiles)` for an album with a
parsed date: fold the classification loop over all files, then derive the
severity from the maximal day gap and the missing count. -/
def analyzeAlbumExifStatus (albumDate : JSDate) (allFiles : List (Option JSDate)) :
    PhotoStatusAgg :=
  let init : PhotoStatusAgg :=
    { correct := 0, earlierCount := 0, laterCount := 0, missingExif := 0,
      unsupported := 0, totalAnalyzed := allFiles.length,
      earliestExifDate := none, latestExifDate := none,
      maxEarlierDays := 0, maxLaterDays := 0, severity := .good }
  let st := allFiles.foldl (analyzeStep albumDate) init
  let maxDiff := max st.maxEarlierDays st.maxLaterDays
  { st with
    severity :=
      if maxDiff > 30 then .error
      else if maxDiff > 7 ∨ st.missingExif > 0 then .warning
      else .good }

/-- The `status` field of the `Album` interface. -/
inductive AlbumStatus where
  | unknown
  | correct
  | mixed
  | incorrect
deriving DecidableEq, Repr

/-- The `Album` interface of `src/lib/services/albums.ts`; the opaque
directory handle is modelled by a numeric identity. -/
structure Album where
  handleId : Nat
  name : List Char
  parsedDate : Option JSDate
  dateString : Option (List Char)
  isValidFormat : Bool
  warnings : List (List Char)
  photoCount : Nat
  supportedPhotoCount : Nat
  unsupportedPhotoCount : Nat
  hasNestedDirectories : Bool
  nestedDirectoryNames : List (List Char)
  status : AlbumStatus
  photoStatus : Option PhotoStatusAgg
deriving DecidableEq, Repr

/-- The module-level `albumCache` record of the album store, at the level
of values (list contents); reference identity is modelled separately for
the aliasing analysis. -/
structure AlbumCacheState where
  albums : List Album
  lastScanTime : Option Int
  rootFolderName : Option (List Char)
deriving DecidableEq, Repr

/-- The initial `albumCache` value. -/
def initialCache : AlbumCacheState := ⟨[], none, none⟩

/-- Model of `albumStore.getAlbums(currentRootName)`, with the wall clock
`Date.now()` passed explicitly as `now`.  The JavaScript condition is
`rootFolderName === currentRootName && lastScanTime &&
(now - lastScanTime) < fiveMinutes && albums.length > 0`; a `lastScanTime`
of `null` or `0` is falsy. -/
def getAlbums (s : AlbumCacheState) (now : Int) (currentRootName : List Char) :
    Option (List Album) :=
  match s.lastScanTime with
  | none => none
  | some t =>
    if s.rootFolderName = some currentRootName ∧ t ≠ 0 ∧
        now - t < 300000 ∧ s.albums ≠ [] then
      some s.albums
    else
      none

/-- Model of `albumStore.setAlbums(albums, rootFolderName)` at `now`:
replaces the whole entry, storing a copy of the caller's list (the copying
is invisible at value level) and `Date.now()` as the scan time. -/
def setAlbums (_s : AlbumCacheState) (albums : List Album)
    (rootFolderName : List Char) (now : Int) : AlbumCacheState :=
  { albums := albums, lastScanTime := some now,
    rootFolderName := some rootFolderName }

/-- Model of `albumStore.clearCache()`. -/
def clearCache (_s : AlbumCacheState) : AlbumCacheState :=
  { albums := [], lastScanTime := none, rootFolderName := none }

/-- Heap of JavaScript array objects holding album records, modelling
reference identity of the mutable arrays involved in the album store. -/
structure AlbumHeap where
  arrays : Nat → List Album
  nextRef : Nat

/-- The album store's own fields, at reference level: `albums` holds a
reference to an array object in the heap. -/
structure AlbumCacheRefState where
  albumsRef : Nat
  lastScanTime : Option Int
  rootFolderName : Option (List Char)

/-- Allocate a fresh array object with the given contents. -/
def allocArray (h : AlbumHeap) (contents : List Album) : AlbumHeap × Nat :=
  (⟨fun r => if r = h.nextRef then contents else h.arrays r, h.nextRef + 1⟩,
   h.nextRef)

/-- Reference-level model of `setAlbums`: `[...albums]` allocates a fresh
array object and copies the caller's array into it. -/
def setAlbumsRef (h : AlbumHeap) (_s : AlbumCacheRefState) (src : Nat)
    (root : List Char) (now : Int) : AlbumHeap × AlbumCacheRefState :=
  let alloc := allocArray h (h.arrays src)
  (alloc.1, ⟨alloc.2, some now, some root⟩)

/-- Reference-level model of `getAlbums`: on a hit, `return
albumCache.albums` hands the caller the internal array reference itself,
not a copy. -/
def getAlbumsRef (h : AlbumHeap) (s : AlbumCacheRefState) (now : Int)
    (root : List Char) : Option Nat :=
  match s.lastScanTime with
  | none => none
  | some t =>
    if s.rootFolderName = some root ∧ t ≠ 0 ∧ now - t < 300000 ∧
        h.arrays s.albumsRef ≠ [] then
      some s.albumsRef
    else
      none

/-- A consumer holding an array reference overwrites element `i`
(`arr[i] = a`), mutating the array object in place. -/
def writeArrayAt (h : AlbumHeap) (r : Nat) (i : Nat) (a : Album) : AlbumHeap :=
  ⟨fun q => if q = r then (h.arrays r).set i a else h.arrays q, h.nextRef⟩

/-- Lower-cased characters, the model of `toLowerCase` for file names. -/
def lowerName (name : List Char) : List Char := name.map Char.toLower

/-- The `/\.jpe?g$/i` test of `writeExifData`. -/
def isJpegName (name : List Char) : Bool :=
  List.isSuffixOf (".jpg".toList) (lowerName name) ||
  List.isSuffixOf (".jpeg".toList) (lowerName name)

/-- A directory of files, each a name with its byte contents.  File bytes
are abstract (`List Nat`); the tag codec that re-encodes them is an
external collaborator and is passed in as an uninterpreted function. -/
structure FileSys where
  files : List (List Char × List Nat)
deriving DecidableEq, Repr

/-- Bytes currently stored under `name`. -/
def FileSys.bytesAt (fs : FileSys) (name : List Char) : Option (List Nat) :=
  (fs.files.find? (fun p => p.1 = name)).map Prod.snd

/-- Model of `writeExifData(fileHandle, targetDate)`: fail if the handle
yields no file or the name is not a JPEG name; otherwise run the bytes
through the piexif pipeline (`encode`, an uninterpreted stand-in for the
external tag codec) and overwrite the same file in place via
`createWritable`.  No other directory entry is read, created or removed. -/
def writeExifData (encode : JSDate → List Nat → List Nat) (fs : FileSys)
    (name : List Char) (targetDate : JSDate) : FileSys × Bool :=
  if (fs.bytesAt name).isNone then (fs, false)
  else if ¬ isJpegName name then (fs, false)
  else
    (⟨fs.files.map (fun p => if p.1 = name then (p.1, encode targetDate p.2) else p)⟩,
     true)

/-- The `status` values of the photo page (`Photo['status']`). -/
inductive PhotoPageStatus where
  | unknown
  | correct
  | incorrect
  | unsupported
deriving DecidableEq, Repr

/-- Audit-time status computation of `loadAlbumPhotos` on the album page:
unsupported files are `unsupported`; with both an album date and an EXIF
date the status is `datesMatch ? correct : incorrect`; every remaining
case stays `unknown`. -/
def auditPhotoStatus (isSupported : Bool) (albumDate exifDate : Option JSDate) :
    PhotoPageStatus :=
  if !isSupported then .unsupported
  else
    match albumDate, exifDate with
    | some a, some e =>
      if datesMatch (some a) (some e) then .correct else .incorrect
    | _, _ => .unknown

/-- Post-fix status computation of `fixPhotoExifDate`: `correct` exactly
when the album date and the re-read date are both present and equal
componentwise on year, month and day; otherwise `incorrect`. -/
def postFixPhotoStatus (albumDate newDate : Option JSDate) : PhotoPageStatus :=
  match albumDate, newDate with
  | some a, some n =>
    if a.year = n.year ∧ a.month = n.month ∧ a.day = n.day then .correct
    else .incorrect
  | _, _ => .incorrect

/-- Model of `fixPhotoExifDate(photo)` on the album page, with the EXIF
reader (`readExifData` plus `getBestExifDate`) abstracted as `readBest`
over the file's bytes: bail out on a missing album date or unreadable
file, compute the target date from the current best date, write, and on
success re-read the file from disk to obtain the updated record's EXIF
date and status.  Returns the final file system and, on success, the
re-read date together with the new status. -/
def fixPhotoExifDate (encode : JSDate → List Nat → List Nat)
    (readBest : List Nat → Option JSDate) (fs : FileSys)
    (albumDate : Option JSDate) (name : List Char) :
    FileSys × Option (Option JSDate × PhotoPageStatus) :=
  match albumDate with
  | none => (fs, none)
  | some a =>
    match fs.bytesAt name with
    | none => (fs, none)
    | some bytes =>
      let currentBest := readBest bytes
      let target := createTargetDate a currentBest
      let res := writeExifData encode fs name target
      if res.2 then
        match res.1.bytesAt name with
        | some newBytes =>
          let newDate := readBest newBytes
          (res.1, some (newDate, postFixPhotoStatus (some a) newDate))
        | none => (res.1, none)
      else
        (res.1, none)

/-- Little-endian decimal digits of `n`; the fuel only bounds the
recursion depth and any fuel of at least the digit count of `n` (in
particular `n` itself) gives the exact digits. -/
def digitsRev : Nat → Nat → List Nat
  | 0, _ => []
  | Nat.succ fuel, n => if n = 0 then [] else n % 10 :: digitsRev fuel (n / 10)

/-- Character of a decimal digit value. -/
def digitChar (k : Nat) : Char := Char.ofNat (48 + k)

/-- Decimal numeral of a natural number, the model of JavaScript
string conversion of a nonnegative integer. -/
def natToChars (n : Nat) : List Char :=
  if n = 0 then ['0'] else (digitsRev n n).reverse.map digitChar

/-- Decimal numeral of an integer (JavaScript string conversion). -/
def intToChars (i : Int) : List Char :=
  if i < 0 then '-' :: natToChars i.natAbs else natToChars i.natAbs

/-- Model of `padStart(2, "0")`. -/
def padStart2 (cs : List Char) : List Char :=
  List.replicate (2 - cs.length) '0' ++ cs

/-- Model of `formatExifDate(date)`: `YYYY:MM:DD HH:MM:SS` with every
field except the year padded to two digits; the year is written as-is. -/
def formatExifDate (date : JSDate) : List Char :=
  intToChars date.year ++
  ':' :: padStart2 (intToChars (date.month + 1)) ++
  ':' :: padStart2 (intToChars date.day) ++
  ' ' :: padStart2 (intToChars date.hours) ++
  ':' :: padStart2 (intToChars date.minutes) ++
  ':' :: padStart2 (intToChars date.seconds)

/-- Fallback branch of `parseExifDate` for strings that miss the strict
`^(\d{4}):(\d{2}):(\d{2}) (\d{2}):(\d{2}):(\d{2})$` pattern: the source
tries `new Date(dateValue)` and returns null when the result is invalid.
Colon-separated date fields are not in the ECMAScript date-time string
format and engines reject them (a colon introduces a time, whose hour
field the leading year overflows), so this fallback is modelled as null
for such strings. -/
def looseDateParse (_s : List Char) : Option JSDate := none

/-- Model of the string branch of `parseExifDate` inside `readExifData`:
match the strict EXIF pattern (anchored, hence exactly 19 characters) and
build `new Date(year, month - 1, day, hour, minute, second)` from the six
captures; otherwise fall back to the loose `new Date(string)` parse. -/
def parseExifDate (s : List Char) : Option JSDate :=
  match s with
  | [y1, y2, y3, y4, c1, mo1, mo2, c2, d1, d2, sp, h1, h2, c3, mi1, mi2, c4, se1, se2] =>
    if (y1.isDigit && y2.isDigit && y3.isDigit && y4.isDigit &&
        mo1.isDigit && mo2.isDigit && d1.isDigit && d2.isDigit &&
        h1.isDigit && h2.isDigit && mi1.isDigit && mi2.isDigit &&
        se1.isDigit && se2.isDigit &&
        (c1 == ':') && (c2 == ':') && (sp == ' ') && (c3 == ':') && (c4 == ':')) then
      some (jsMakeDate (digitsToNat [y1, y2, y3, y4])
        ((digitsToNat [mo1, mo2] : Int) - 1) (digitsToNat [d1, d2])
        (digitsToNat [h1, h2]) (digitsToNat [mi1, mi2]) (digitsToNat [se1, se2]) 0)
    else
      looseDateParse s
  | _ => looseDateParse s

/-- Severity rule in the words of the specification (for comparison with
the code's computation): error if either max day-gap exceeds 30, else
warning if either exceeds 7 or any photo misses its date, else good. -/
def severityOfClaim (maxEarlier maxLater : Int) (missing : Nat) : Severity :=
  if maxEarlier > 30 ∨ maxLater > 30 then .error
  else if maxEarlier > 7 ∨ maxLater > 7 ∨ missing > 0 then .warning
  else .good

/-- Claim-side predicate: the name starts with at least eight ASCII
digits. -/
def startsWithEightDigits (name : List Char) : Prop :=
  (name.take 8).length = 8 ∧ (name.take 8).all Char.isDigit = true

instance (name : List Char) : Decidable (startsWithEightDigits name) := by
  unfold startsWithEightDigits; infer_instance

/-- Claim-side predicate: the character after the eight-digit run, when
present, is not a digit. -/
def ninthNotDigit (name : List Char) : Prop :=
  match name.get? 8 with
  | some c => c.isDigit = false
  | none => True

instance (name : List Char) : Decidable (ninthNotDigit name) := by
  unfold ninthNotDigit; rcases name.get? 8 <;> infer_instance

/-- Claim-side predicate, literal reading: the name begins with exactly
eight ASCII digits. -/
def exactlyEightDigitStart (name : List Char) : Prop :=
  startsWithEightDigits name ∧ ninthNotDigit name

instance (name : List Char) : Decidable (exactlyEightDigitStart name) := by
  unfold exactlyEightDigitStart; infer_instance

/-- Claim-side predicate: the eight leading digits split as `YYYYMMDD`
form a real Gregorian calendar date with year in `[1900, 2100]`. -/
def realDateInRange (name : List Char) : Prop :=
  1900 ≤ (digitsToNat (name.take 4) : Int) ∧
  (digitsToNat (name.take 4) : Int) ≤ 2100 ∧
  1 ≤ (digitsToNat ((name.drop 4).take 2) : Int) ∧
  (digitsToNat ((name.drop 4).take 2) : Int) ≤ 12 ∧
  1 ≤ (digitsToNat ((name.drop 6).take 2) : Int) ∧
  (digitsToNat ((name.drop 6).take 2) : Int) ≤
    dim0 (digitsToNat (name.take 4) : Int)
      ((digitsToNat ((name.drop 4).take 2) : Int) - 1)

instance (name : List Char) : Decidable (realDateInRange name) := by
  unfold realDateInRange; infer_instance

/-- A nine-leading-digit album name whose first eight digits form a valid
date: `190001011`. -/
def nineDigitName : List Char := "190001011".toList

/-- An inert album record used by the cache scenarios. -/
def sampleAlbum : Album :=
  ⟨0, ['a'], none, none, false, [], 0, 0, 0, false, [], .unknown, none⟩

/-- A second, distinct album record. -/
def sampleAlbumB : Album :=
  ⟨1, ['b'], none, none, false, [], 0, 0, 0, false, [], .unknown, none⟩

/-- Cache state produced by a store whose wall clock reads 0 ms. -/
def epochStoreState : AlbumCacheState :=
  setAlbums initialCache [sampleAlbum] ['r'] 0

/-- A heap in which the caller owns array 0 containing one album. -/
def callerHeap : AlbumHeap × Nat := allocArray ⟨fun _ => [], 0⟩ [sampleAlbum]

/-- The heap and store fields after `setAlbums` copies the caller's array. -/
def storedRefState : AlbumHeap × AlbumCacheRefState :=
  setAlbumsRef callerHeap.1 ⟨0, none, none⟩ callerHeap.2 ['r'] 10

/-- A JPEG file name. -/
def jpgName : List Char := "IMG_0001.jpg".toList

/-- A one-file directory holding that JPEG. -/
def jpgFS : FileSys := ⟨[(jpgName, [0])]⟩

/-- An album date: 2020-06-15 local midnight, as `parseAlbumDate` builds
it. -/
def juneAlbumDate : JSDate := ⟨2020, 5, 15, 0, 0, 0, 0⟩

/-- A later capture timestamp: 2020-06-20 12:00:00. -/
def juneLaterCapture : JSDate := ⟨2020, 5, 20, 12, 0, 0, 0⟩

/-- Uninterpreted tag codec used in concrete runs: encoding any date into
any bytes yields the byte string `[1]`. -/
def stubEncode : JSDate → List Nat → List Nat := fun _ _ => [1]

/-- Stub EXIF reader matching `stubEncode`: bytes `[1]` decode to
2020-06-15 12:00:00, anything else has no capture date. -/
def stubReadBest : List Nat → Option JSDate :=
  fun b => if b = [1] then some ⟨2020, 5, 15, 12, 0, 0, 0⟩ else none

/-- A valid date value with a three-digit year, 0999-01-02 03:04:05. -/
def threeDigitYear : JSDate := ⟨999, 0, 2, 3, 4, 5, 0⟩

/-- A valid date value with a four-digit year, 2020-06-15 03:04:05. -/
def roundTripSample : JSDate := ⟨2020, 5, 15, 3, 4, 5, 0⟩


lemma febExtra_cases (y : Int) : febExtra y = 0 ∨ febExtra y = 1 := by
  unfold febExtra; split <;> simp

set_option maxHeartbeats 1000000 in
lemma dim0_ge (y m0 : Int) : 28 ≤ dim0 y m0 := by
  have := febExtra_cases y
  unfold dim0; split_ifs <;> omega

set_option maxHeartbeats 1000000 in
lemma dim0_le (y m0 : Int) : dim0 y m0 ≤ 31 := by
  have := febExtra_cases y
  unfold dim0; split_ifs <;> omega

set_option maxHeartbeats 1000000 in
lemma daysBeforeMonth_nonneg (y m0 : Int) (h0 : 0 ≤ m0) :
    0 ≤ daysBeforeMonth y m0 := by
  have := febExtra_cases y
  unfold daysBeforeMonth; split_ifs <;> omega

set_option maxHeartbeats 1000000 in
lemma daysBeforeMonth_add_dim0 (y m0 : Int) (h0 : 0 ≤ m0) (h10 : m0 ≤ 10) :
    daysBeforeMonth y (m0 + 1) = daysBeforeMonth y m0 + dim0 y m0 := by
  interval_cases m0 <;> simp [daysBeforeMonth, dim0] <;> omega

set_option maxHeartbeats 1000000 in
lemma daysBeforeMonth_mono (y m1 m2 : Int) (h0 : 0 ≤ m1) (h12 : m1 ≤ m2)
    (h11 : m2 ≤ 11) : daysBeforeMonth y m1 ≤ daysBeforeMonth y m2 := by
  have hf := febExtra_cases y
  have h1b : m1 ≤ 11 := le_trans h12 h11
  interval_cases m1 <;> interval_cases m2 <;> simp [daysBeforeMonth] <;> omega

set_option maxHeartbeats 1000000 in
lemma yearOffset_le (y m0 d : Int) (h0 : 0 ≤ m0) (h11 : m0 ≤ 11)
    (hd : d ≤ dim0 y m0) :
    daysBeforeMonth y m0 + (d - 1) ≤ 364 + febExtra y := by
  have hf := febExtra_cases y
  interval_cases m0 <;> simp [daysBeforeMonth, dim0] at hd ⊢ <;> omega

lemma isLeap_iff (y : Int) :
    isLeap y = true ↔ (y % 4 = 0 ∧ y % 100 ≠ 0) ∨ y % 400 = 0 := by
  unfold isLeap
  simp [Bool.or_eq_true, Bool.and_eq_true, beq_iff_eq, bne_iff_ne]

lemma leapsBefore_succ (y : Int) :
    leapsBefore (y + 1) = leapsBefore y + febExtra y := by
  have h := isLeap_iff y
  unfold leapsBefore febExtra
  split
  · rename_i hl
    have := h.mp hl
    omega
  · rename_i hl
    have : ¬ ((y % 4 = 0 ∧ y % 100 ≠ 0) ∨ y % 400 = 0) := fun hc => hl (h.mpr hc)
    omega

/-- Start-of-year day number: `civilDays y 0 1`. -/
lemma civilDays_start (y : Int) : civilDays y 0 1 = 365 * y + leapsBefore y := by
  simp [civilDays, daysBeforeMonth]

lemma startOfYear_succ (y : Int) :
    365 * (y + 1) + leapsBefore (y + 1) = 365 * y + leapsBefore y + 365 + febExtra y := by
  have := leapsBefore_succ y
  omega

lemma startOfYear_mono (y z : Int) (hyz : y ≤ z) :
    365 * y + leapsBefore y ≤ 365 * z + leapsBefore z := by
  refine @Int.le_induction (fun z => 365 * y + leapsBefore y ≤ 365 * z + leapsBefore z) y ?_ ?_ z hyz
  · exact le_refl _
  · intro n hn ih
    have h1 := leapsBefore_succ n
    have h2 := febExtra_cases n
    omega

lemma inYear_lt (y m1 d1 m2 d2 : Int)
    (h1a : 0 ≤ m1) (h1b : m1 ≤ 11) (h1c : 1 ≤ d1) (h1d : d1 ≤ dim0 y m1)
    (h2a : 0 ≤ m2) (h2b : m2 ≤ 11) (h2c : 1 ≤ d2)
    (hlt : m1 < m2 ∨ (m1 = m2 ∧ d1 < d2)) :
    daysBeforeMonth y m1 + d1 < daysBeforeMonth y m2 + d2 := by
  rcases hlt with h | ⟨he, hd⟩
  · have hstep := daysBeforeMonth_add_dim0 y m1 h1a (by omega)
    have hmono := daysBeforeMonth_mono y (m1 + 1) m2 (by omega) (by omega) h2b
    omega
  · subst he; omega

/-- Strictly earlier calendar dates have strictly smaller civil day
numbers (for in-range month and day components). -/
lemma civilDays_lt (y1 m1 d1 y2 m2 d2 : Int)
    (h1a : 0 ≤ m1) (h1b : m1 ≤ 11) (h1c : 1 ≤ d1) (h1d : d1 ≤ dim0 y1 m1)
    (h2a : 0 ≤ m2) (h2b : m2 ≤ 11) (h2c : 1 ≤ d2) (h2d : d2 ≤ dim0 y2 m2)
    (hlt : y1 < y2 ∨ (y1 = y2 ∧ (m1 < m2 ∨ (m1 = m2 ∧ d1 < d2)))) :
    civilDays y1 m1 d1 < civilDays y2 m2 d2 := by
  rcases hlt with h | ⟨he, hin⟩
  · have hub := yearOffset_le y1 m1 d1 h1a h1b h1d
    have hlb1 := daysBeforeMonth_nonneg y2 m2 h2a
    have hsucc := startOfYear_succ y1
    have hmono := startOfYear_mono (y1 + 1) y2 (by omega)
    unfold civilDays
    omega
  · subst he
    have := inYear_lt y1 m1 d1 m2 d2 h1a h1b h1c h1d h2a h2b h2c hin
    unfold civilDays
    omega

lemma timeOfDayMs_bounds (t : JSDate) (h : t.Valid) :
    0 ≤ t.timeOfDayMs ∧ t.timeOfDayMs < 86400000 := by
  obtain ⟨_, _, _, _, _, _, _, _, _, _, _, _⟩ := h
  unfold JSDate.timeOfDayMs
  omega

/-- The `getTime` linearisation respects strict calendar order on
normalised date values, whatever the times of day. -/
lemma getTime_lt_of_calLt (t1 t2 : JSDate) (h1 : t1.Valid) (h2 : t2.Valid)
    (hlt : calLt t1 t2) : t1.getTime < t2.getTime := by
  have hcd : civilDays t1.year t1.month t1.day < civilDays t2.year t2.month t2.day := by
    apply civilDays_lt
    · exact h1.1
    · exact h1.2.1
    · exact h1.2.2.1
    · exact h1.2.2.2.1
    · exact h2.1
    · exact h2.2.1
    · exact h2.2.2.1
    · exact h2.2.2.2.1
    · exact hlt
  have hb1 := timeOfDayMs_bounds t1 h1
  have hb2 := timeOfDayMs_bounds t2 h2
  unfold JSDate.getTime JSDate.epochDay
  have hed : civilDays t1.year t1.month t1.day - epochCivilDays + 1 ≤
      civilDays t2.year t2.month t2.day - epochCivilDays := by omega
  nlinarith [hb1.1, hb1.2, hb2.1, hb2.2]

lemma cal_trichotomy (a b : JSDate) (hne : ¬ calEq a b) (hnlt : ¬ calLt a b) :
    calLt b a := by
  unfold calEq at hne
  unfold calLt at *
  omega

lemma analyzeStep_counts (a : JSDate) (st : PhotoStatusAgg) (e : Option JSDate) :
    (analyzeStep a st e).correct + (analyzeStep a st e).earlierCount +
        (analyzeStep a st e).laterCount + (analyzeStep a st e).missingExif =
      st.correct + st.earlierCount + st.laterCount + st.missingExif + 1 ∧
    (analyzeStep a st e).totalAnalyzed = st.totalAnalyzed ∧
    (analyzeStep a st e).severity = st.severity := by
  cases e with
  | none =>
    refine ⟨?_, by simp [analyzeStep, categorizePhotoDate], by simp [analyzeStep, categorizePhotoDate]⟩
    simp [analyzeStep, categorizePhotoDate]
    omega
  | some p =>
    simp only [analyzeStep, categorizePhotoDate]
    split_ifs <;> simp <;> omega

lemma analyze_fold_counts (a : JSDate) (files : List (Option JSDate)) :
    ∀ st : PhotoStatusAgg,
      ((files.foldl (analyzeStep a) st).correct +
          (files.foldl (analyzeStep a) st).earlierCount +
          (files.foldl (analyzeStep a) st).laterCount +
          (files.foldl (analyzeStep a) st).missingExif =
        st.correct + st.earlierCount + st.laterCount + st.missingExif +
          files.length) ∧
      (files.foldl (analyzeStep a) st).totalAnalyzed = st.totalAnalyzed := by
  induction files with
  | nil => intro st; simp
  | cons e rest ih =>
    intro st
    have h1 := analyzeStep_counts a st e
    have h2 := ih (analyzeStep a st e)
    simp only [List.foldl_cons, List.length_cons]
    omega

/-- C5. For every input list of photos (a photo is its best capture date,
or `none` when unreadable), the breakdown computed by the main page's
album analysis satisfies
`correct + earlierCount + laterCount + missingExif = totalAnalyzed`, and
the empty input yields a breakdown with `totalAnalyzed = 0` and severity
`good`. -/
theorem analyze_counts_invariant (a : JSDate) (files : List (Option JSDate)) :
    ((analyzeAlbumExifStatus a files).correct +
        (analyzeAlbumExifStatus a files).earlierCount +
        (analyzeAlbumExifStatus a files).laterCount +
        (analyzeAlbumExifStatus a files).missingExif =
      (analyzeAlbumExifStatus a files).totalAnalyzed) ∧
    (analyzeAlbumExifStatus a []).totalAnalyzed = 0 ∧
    (analyzeAlbumExifStatus a []).severity = Severity.good := by
  refine ⟨?_, by simp [analyzeAlbumExifStatus], by simp [analyzeAlbumExifStatus]⟩
  have h := analyze_fold_counts a files
    { correct := 0, earlierCount := 0, laterCount := 0, missingExif := 0,
      unsupported := 0, totalAnalyzed := files.length,
      earliestExifDate := none, latestExifDate := none,
      maxEarlierDays := 0, maxLaterDays := 0, severity := .good }
  simp only [analyzeAlbumExifStatus]
  simp at h ⊢
  omega

/-- C4. For every album analysis result, the severity equals the
specification's rule applied to the result's two maximal day gaps and its
missing-date count: `error` when either gap exceeds 30, else `warning`
when either gap exceeds 7 or the missing count is positive, else
`good`. -/
theorem analyze_severity_rule (a : JSDate) (files : List (Option JSDate)) :
    (analyzeAlbumExifStatus a files).severity =
      severityOfClaim (analyzeAlbumExifStatus a files).maxEarlierDays
        (analyzeAlbumExifStatus a files).maxLaterDays
        (analyzeAlbumExifStatus a files).missingExif := by
  simp only [analyzeAlbumExifStatus, severityOfClaim]
  rcases max_cases
      (List.foldl (analyzeStep a) _ files).maxEarlierDays
      (List.foldl (analyzeStep a) _ files).maxLaterDays with
    ⟨hEq, hLe⟩ | ⟨hEq, hLe⟩ <;>
  · rw [hEq]
    split_ifs <;> first | rfl | omega

/-- C6. `createTargetDate` always returns a timestamp on the album's
calendar date (it matches the album date in the date-only comparison), and
its time of day is the existing capture timestamp's time of day when one
is given, and 12:00:00.000 local otherwise. -/
theorem createTargetDate_spec (albumDate : JSDate) (e : Option JSDate) :
    (createTargetDate albumDate e).year = albumDate.year ∧
    (createTargetDate albumDate e).month = albumDate.month ∧
    (createTargetDate albumDate e).day = albumDate.day ∧
    datesMatch (some albumDate) (some (createTargetDate albumDate e)) = true ∧
    (∀ ex, e = some ex →
      (createTargetDate albumDate e).hours = ex.hours ∧
      (createTargetDate albumDate e).minutes = ex.minutes ∧
      (createTargetDate albumDate e).seconds = ex.seconds ∧
      (createTargetDate albumDate e).ms = ex.ms) ∧
    (e = none →
      (createTargetDate albumDate e).hours = 12 ∧
      (createTargetDate albumDate e).minutes = 0 ∧
      (createTargetDate albumDate e).seconds = 0 ∧
      (createTargetDate albumDate e).ms = 0) := by
  cases e with
  | none => simp [createTargetDate, datesMatch]
  | some ex =>
    refine ⟨rfl, rfl, rfl, by simp [createTargetDate, datesMatch], ?_, by intro h; cases h⟩
    intro ex2 h
    cases h
    exact ⟨rfl, rfl, rfl, rfl⟩

/-- C6 witness: concrete instantiation of the target-date rule at the
June album date with an existing 12:00 capture time. -/
theorem createTargetDate_spec_witness :
    datesMatch (some juneAlbumDate)
        (some (createTargetDate juneAlbumDate (some juneLaterCapture))) = true ∧
    (createTargetDate juneAlbumDate (some juneLaterCapture)).hours = 12 := by
  have h := createTargetDate_spec juneAlbumDate (some juneLaterCapture)
  exact ⟨h.2.2.2.1, (h.2.2.2.2.1 juneLaterCapture rfl).1⟩

/-- C7 counterexample: a store whose `Date.now()` read 0 ms satisfies all
three conditions of the claim (matching root, age below five minutes,
non-empty list), yet the lookup is a miss, because `lastScanTime` is falsy
at 0. -/
theorem getAlbums_epoch_store_miss :
    getAlbums epochStoreState 1000 ['r'] = none ∧
    epochStoreState.rootFolderName = some ['r'] ∧
    epochStoreState.lastScanTime = some 0 ∧
    ((1000 : Int) - 0 < 300000) ∧
    epochStoreState.albums ≠ [] := by decide

/-- C7 amended. A lookup hits exactly when the stored root matches, the
recorded scan time is nonzero (a scan recorded at wall-clock 0 is treated
as no entry), the entry is strictly younger than five minutes and the
stored list is non-empty; moreover a store followed by a lookup at the
same clock and root returns the stored non-empty list, a lookup after an
invalidation misses, and a lookup five minutes or later after a store
misses. -/
theorem getAlbums_spec :
    (∀ (s : AlbumCacheState) (now : Int) (root : List Char) (l : List Album),
      getAlbums s now root = some l ↔
        s.rootFolderName = some root ∧
        (∃ t, s.lastScanTime = some t ∧ t ≠ 0 ∧ now - t < 300000) ∧
        s.albums ≠ [] ∧ l = s.albums) ∧
    (∀ (s : AlbumCacheState) (albums : List Album) (root : List Char) (now : Int),
      albums ≠ [] → now ≠ 0 →
        getAlbums (setAlbums s albums root now) now root = some albums) ∧
    (∀ (s : AlbumCacheState) (now : Int) (root : List Char),
      getAlbums (clearCache s) now root = none) ∧
    (∀ (s : AlbumCacheState) (albums : List Album) (root : List Char) (t now : Int),
      300000 ≤ now - t →
        getAlbums (setAlbums s albums root t) now root = none) := by
  refine ⟨?_, ?_, ?_, ?_⟩
  · intro s now root l
    cases hts : s.lastScanTime with
    | none => simp [getAlbums, hts]
    | some t =>
      simp only [getAlbums, hts]
      split_ifs with hc
      · constructor
        · intro h
          obtain ⟨h1, h2, h3, h4⟩ := hc
          exact ⟨h1, ⟨t, rfl, h2, h3⟩, h4, by cases h; rfl⟩
        · intro ⟨h1, ⟨t2, ht2, _, _⟩, h4, h5⟩
          cases h5; rfl
      · constructor
        · intro h; cases h
        · intro ⟨h1, ⟨t2, ht2, h2, h3⟩, h4, h5⟩
          cases ht2
          exact absurd ⟨h1, h2, h3, h4⟩ hc
  · intro s albums root now hne hnz
    unfold getAlbums setAlbums
    simp [hne, hnz]
  · intro s now root
    rfl
  · intro s albums root t now hage
    unfold getAlbums setAlbums
    simp only []
    split_ifs with hc
    · omega
    · rfl

/-- C7 witness: concrete store-then-lookup hit at clock 5, miss after
invalidation, and miss 300 000 ms after the store. -/
theorem getAlbums_spec_witness :
    getAlbums (setAlbums initialCache [sampleAlbum] ['r'] 5) 5 ['r'] =
      some [sampleAlbum] ∧
    getAlbums (clearCache epochStoreState) 7 ['r'] = none ∧
    getAlbums (setAlbums initialCache [sampleAlbum] ['r'] 5) 300005 ['r'] = none := by
  refine ⟨?_, ?_, ?_⟩
  · exact getAlbums_spec.2.1 initialCache [sampleAlbum] ['r'] 5 (by decide) (by decide)
  · exact getAlbums_spec.2.2.1 epochStoreState 7 ['r']
  · exact getAlbums_spec.2.2.2 initialCache [sampleAlbum] ['r'] 5 300005 (by decide)

/-- C8. The lookup hands the caller the cache's internal array reference
itself: after a store, a hit returns exactly the stored reference, an
element write through that reference changes the cached contents from
`[sampleAlbum]` to `[sampleAlbumB]` without any store or patch, and a
subsequent lookup exposes the mutated list. -/
theorem getAlbums_returns_live_reference :
    getAlbumsRef storedRefState.1 storedRefState.2 10 ['r'] =
      some storedRefState.2.albumsRef ∧
    storedRefState.1.arrays storedRefState.2.albumsRef = [sampleAlbum] ∧
    (writeArrayAt storedRefState.1 storedRefState.2.albumsRef 0
        sampleAlbumB).arrays storedRefState.2.albumsRef = [sampleAlbumB] ∧
    getAlbumsRef
        (writeArrayAt storedRefState.1 storedRefState.2.albumsRef 0 sampleAlbumB)
        storedRefState.2 10 ['r'] = some storedRefState.2.albumsRef ∧
    sampleAlbum ≠ sampleAlbumB := by decide

/-- C1. A fix never creates a directory entry: `writeExifData` leaves the
set of file names unchanged for every input, and on the concrete
single-JPEG directory it succeeds while the directory still contains only
the original file afterwards, so no backup copy exists after a successful
fix. -/
theorem writeExifData_creates_no_backup :
    (∀ (encode : JSDate → List Nat → List Nat) (fs : FileSys)
        (name : List Char) (d : JSDate),
      ((writeExifData encode fs name d).1).files.map Prod.fst =
        fs.files.map Prod.fst) ∧
    (writeExifData stubEncode jpgFS jpgName juneAlbumDate).2 = true ∧
    ((writeExifData stubEncode jpgFS jpgName juneAlbumDate).1).files.map
        Prod.fst = [jpgName] := by
  refine ⟨?_, by decide, by decide⟩
  intro encode fs name d
  unfold writeExifData
  split_ifs with h1 h2 <;>
    first
      | rfl
      | · simp only [List.map_map]
          refine List.map_congr_left ?_
          intro p _
          simp only [Function.comp_apply]
          split_ifs <;> rfl

/-- C9 counterexample: when the re-read yields no capture date, the
post-fix status computation returns `incorrect` while the audit-time
computation for the same supported photo returns `unknown`, so the two
computations are not equivalent. -/
theorem postFix_audit_disagree_on_missing :
    auditPhotoStatus true (some juneAlbumDate) none = PhotoPageStatus.unknown ∧
    postFixPhotoStatus (some juneAlbumDate) none = PhotoPageStatus.incorrect := by
  decide

/-- C9 amended. After every successful fix the updated record's capture
date is obtained by re-reading the file now on disk (never synthesised
from the intended write), and its status is computed from that re-read
date; this status computation agrees with the audit-time one whenever the
re-read date is present, while an absent re-read date yields `incorrect`
where the audit computation would yield `unknown`. -/
theorem fix_reread_status_spec :
    (∀ (encode : JSDate → List Nat → List Nat)
        (readBest : List Nat → Option JSDate) (fs : FileSys) (a : JSDate)
        (name : List Char) (fs2 : FileSys) (nd : Option JSDate)
        (st : PhotoPageStatus),
      fixPhotoExifDate encode readBest fs (some a) name = (fs2, some (nd, st)) →
        (∃ newBytes, fs2.bytesAt name = some newBytes ∧ nd = readBest newBytes) ∧
        st = postFixPhotoStatus (some a) nd) ∧
    (∀ (a n : JSDate),
      postFixPhotoStatus (some a) (some n) =
        auditPhotoStatus true (some a) (some n)) := by
  constructor
  · intro encode readBest fs a name fs2 nd st h
    simp only [fixPhotoExifDate] at h
    cases hb : fs.bytesAt name with
    | none => rw [hb] at h; cases h
    | some bytes =>
      rw [hb] at h
      simp only [] at h
      by_cases hw : (writeExifData encode fs name
          (createTargetDate a (readBest bytes))).2 = true
      · rw [if_pos hw] at h
        cases hb2 : (writeExifData encode fs name
            (createTargetDate a (readBest bytes))).1.bytesAt name with
        | none =>
          rw [hb2] at h
          cases h
        | some newBytes =>
          rw [hb2] at h
          obtain ⟨hfs, hsome⟩ := Prod.mk.injEq .. ▸ h
          injection h with hfs2 hsome2
          injection hsome2 with hpair
          obtain ⟨hnd, hst⟩ := Prod.mk.injEq .. ▸ hpair
          subst hfs2
          refine ⟨⟨newBytes, hb2, hnd.symm⟩, ?_⟩
          rw [hst.symm, hnd.symm]
      · rw [if_neg hw] at h
        cases h
  · intro a n
    simp only [postFixPhotoStatus, auditPhotoStatus, datesMatch, Bool.not_true,
      Bool.false_eq_true, if_false]
    by_cases h : a.year = n.year ∧ a.month = n.month ∧ a.day = n.day
    · rw [if_pos h]
      have : (a.year == n.year && a.month == n.month && a.day == n.day) = true := by
        simp [h.1, h.2.1, h.2.2]
      rw [if_pos this]
    · rw [if_neg h]
      have : ¬ ((a.year == n.year && a.month == n.month && a.day == n.day) = true) := by
        simp only [Bool.and_eq_true, beq_iff_eq]
        intro hc
        exact h ⟨hc.1.1, hc.1.2, hc.2⟩
      rw [if_neg this]

/-- C9 witness: a concrete successful fix run with the stub codec; the
theorem yields that the reported date is the re-read of the bytes now on
disk. -/
theorem fix_reread_status_spec_witness :
    (∃ newBytes,
      (FileSys.mk [(jpgName, [1])]).bytesAt jpgName = some newBytes ∧
      (some (⟨2020, 5, 15, 12, 0, 0, 0⟩ : JSDate)) = stubReadBest newBytes) ∧
    PhotoPageStatus.correct =
      postFixPhotoStatus (some juneAlbumDate)
        (some (⟨2020, 5, 15, 12, 0, 0, 0⟩ : JSDate)) := by
  exact fix_reread_status_spec.1 stubEncode stubReadBest jpgFS juneAlbumDate
    jpgName ⟨[(jpgName, [1])]⟩ (some ⟨2020, 5, 15, 12, 0, 0, 0⟩)
    PhotoPageStatus.correct (by decide)

/-- C3. For every valid album date and photo date (component records in
the ranges `Date` accessors guarantee), the classification is
`missingExif` when the capture date is absent, `correct` when the two
calendar-date projections are equal, `futureDate` when the capture
calendar date is strictly after the album calendar date, and `pastDate`
otherwise — so the outcome depends only on the calendar-date projections
and never on either time of day. -/
theorem categorize_calendar_only (albumDate : JSDate) (photoDate : Option JSDate)
    (ha : albumDate.Valid) (hp : ∀ q, photoDate = some q → q.Valid) :
    categorizePhotoDate albumDate photoDate =
      match photoDate with
      | none => PhotoDateCategory.missingExif
      | some q =>
        if calEq albumDate q then PhotoDateCategory.correct
        else if calLt albumDate q then PhotoDateCategory.futureDate
        else PhotoDateCategory.pastDate := by
  cases photoDate with
  | none => rfl
  | some q =>
    have hq := hp q rfl
    simp only [categorizePhotoDate]
    by_cases heq : calEq albumDate q
    · have hm : datesMatch (some albumDate) (some q) = true := by
        simp [datesMatch, heq.1, heq.2.1, heq.2.2]
      rw [if_pos hm, if_pos heq]
    · have hm : ¬ datesMatch (some albumDate) (some q) = true := by
        simp only [datesMatch, Bool.and_eq_true, beq_iff_eq]
        intro hc
        exact heq ⟨hc.1.1, hc.1.2, hc.2⟩
      rw [if_neg hm, if_neg heq]
      by_cases hlt : calLt albumDate q
      · have := getTime_lt_of_calLt albumDate q ha hq hlt
        rw [if_pos (by omega), if_pos hlt]
      · have hlt2 : calLt q albumDate := by
          unfold calEq at heq
          unfold calLt at hlt ⊢
          omega
        have := getTime_lt_of_calLt q albumDate hq ha hlt2
        rw [if_neg (by omega), if_neg hlt]

/-- C3 witness: the 2020-06-20 12:00 capture in the 2020-06-15 album is
classified `futureDate`, via the theorem at those concrete dates. -/
theorem categorize_calendar_only_witness :
    categorizePhotoDate juneAlbumDate (some juneLaterCapture) =
      PhotoDateCategory.futureDate := by
  have h := categorize_calendar_only juneAlbumDate (some juneLaterCapture)
    (by decide) (by intro q hq; cases hq; decide)
  exact h.trans (by decide)

lemma dayCarry_stop (fuel : Nat) (y m0 d : Int) (h1 : 1 ≤ d)
    (h2 : d ≤ dim0 y m0) : dayCarry (Nat.succ fuel) y m0 d = (y, m0, d) := by
  simp only [dayCarry]
  rw [if_neg (by omega : ¬ d < 1), if_pos h2]

lemma dayCarry_carry (fuel : Nat) (y m0 d : Int) (h1 : dim0 y m0 < d)
    (h11 : m0 ≠ 11) :
    dayCarry (Nat.succ fuel) y m0 d = dayCarry fuel y (m0 + 1) (d - dim0 y m0) := by
  have := dim0_ge y m0
  simp only [dayCarry]
  rw [if_neg (by omega : ¬ d < 1), if_neg (by omega : ¬ d ≤ dim0 y m0), if_neg h11]

lemma jsMakeDate_normal (y m0 d h mi s : Int) (hy : 100 ≤ y) (hm : 0 ≤ m0)
    (hm2 : m0 ≤ 11) (hd1 : 1 ≤ d) (hd2 : d ≤ dim0 y m0) (hh : 0 ≤ h)
    (hh2 : h ≤ 23) (hmi : 0 ≤ mi) (hmi2 : mi ≤ 59) (hs : 0 ≤ s) (hs2 : s ≤ 59) :
    jsMakeDate y m0 d h mi s 0 = ⟨y, m0, d, h, mi, s, 0⟩ := by
  have hyr : ¬ (0 ≤ y ∧ y ≤ 99) := by omega
  have hediv : (h * 3600000 + mi * 60000 + s * 1000) / 86400000 = 0 := by omega
  have hemod : (h * 3600000 + mi * 60000 + s * 1000) % 86400000 =
      h * 3600000 + mi * 60000 + s * 1000 := by omega
  have hdiv12 : m0 / 12 = 0 := by omega
  have hmod12 : m0 % 12 = m0 := by omega
  have hfh : (h * 3600000 + mi * 60000 + s * 1000) / 3600000 = h := by omega
  have hfmi : (h * 3600000 + mi * 60000 + s * 1000) % 3600000 / 60000 = mi := by omega
  have hfs : (h * 3600000 + mi * 60000 + s * 1000) % 60000 / 1000 = s := by omega
  have hfms : (h * 3600000 + mi * 60000 + s * 1000) % 1000 = 0 := by omega
  have h24 : (24 : Nat) = Nat.succ 23 := rfl
  simp only [jsMakeDate, add_zero, if_neg hyr, hediv, hemod, hdiv12, hmod12,
    hfh, hfmi, hfs, hfms]
  rw [h24, dayCarry_stop 23 y m0 d hd1 hd2]

lemma jsMakeDate_month_overflow (y m0 d : Int) (hy : 100 ≤ y) (hm : 0 ≤ m0)
    (hm2 : m0 ≤ 11) (hd1 : dim0 y m0 < d) (hd2 : d ≤ 31) :
    (jsMakeDate y m0 d 0 0 0 0).month = m0 + 1 ∧
    (jsMakeDate y m0 d 0 0 0 0).year = y := by
  have h11 : m0 ≠ 11 := by
    intro h
    rw [h] at hd1
    simp only [dim0] at hd1
    omega
  have hge := dim0_ge y m0
  have hge2 := dim0_ge y (m0 + 1)
  have hyr : ¬ (0 ≤ y ∧ y ≤ 99) := by omega
  have hediv : ((0: Int) * 3600000 + 0 * 60000 + 0 * 1000) / 86400000 = 0 := by omega
  have hemod : ((0: Int) * 3600000 + 0 * 60000 + 0 * 1000) % 86400000 = 0 := by omega
  have hdiv12 : m0 / 12 = 0 := by omega
  have hmod12 : m0 % 12 = m0 := by omega
  have h24 : (24 : Nat) = Nat.succ 23 := rfl
  have h23 : (23 : Nat) = Nat.succ 22 := rfl
  simp only [jsMakeDate, add_zero, if_neg hyr, hediv, hemod, hdiv12, hmod12]
  rw [h24, dayCarry_carry 23 y m0 d hd1 h11]
  rw [h23, dayCarry_stop 22 y (m0 + 1) (d - dim0 y m0) (by omega) (by omega)]
  exact ⟨rfl, rfl⟩

lemma take_slices (name : List Char) :
    (name.take 8).take 4 = name.take 4 ∧
    ((name.take 8).drop 4).take 2 = (name.drop 4).take 2 ∧
    (name.take 8).drop 6 = (name.drop 6).take 2 := by
  refine ⟨?_, ?_, ?_⟩
  · rw [List.take_take]; norm_num
  · rw [List.drop_take, List.take_take]; norm_num
  · rw [List.drop_take]

lemma parseAlbumDate_eq (name : List Char) :
    parseAlbumDate name =
      if startsWithEightDigits name then
        (if realDateInRange name then
          ⟨some ⟨digitsToNat (name.take 4),
                 (digitsToNat ((name.drop 4).take 2) : Int) - 1,
                 digitsToNat ((name.drop 6).take 2), 0, 0, 0, 0⟩,
            some (name.take 8), true⟩
         else ⟨none, some (name.take 8), false⟩)
      else ⟨none, none, false⟩ := by
  obtain ⟨ht4, ht2, ht6⟩ := take_slices name
  by_cases hs : startsWithEightDigits name
  · rw [if_pos hs]
    unfold startsWithEightDigits at hs
    simp only [parseAlbumDate, ht4, ht2, ht6]
    rw [if_pos hs]
    set Y : Int := (digitsToNat (name.take 4) : Int) with hY
    set M : Int := (digitsToNat ((name.drop 4).take 2) : Int) with hM
    set D : Int := (digitsToNat ((name.drop 6).take 2) : Int) with hD
    have hY0 : 0 ≤ Y := by positivity
    have hM0 : 0 ≤ M := by positivity
    have hD0 : 0 ≤ D := by positivity
    by_cases hr : Y < 1900 ∨ Y > 2100 ∨ M < 1 ∨ M > 12 ∨ D < 1 ∨ D > 31
    · rw [if_pos hr]
      have hnr : ¬ realDateInRange name := by
        unfold realDateInRange
        rw [← hY, ← hM, ← hD]
        have := dim0_le Y (M - 1)
        omega
      rw [if_neg hnr]
    · rw [if_neg hr]
      push_neg at hr
      obtain ⟨h1, h2, h3, h4, h5, h6⟩ := hr
      by_cases hdim : D ≤ dim0 Y (M - 1)
      · have hmk := jsMakeDate_normal Y (M - 1) D 0 0 0 (by omega) (by omega)
          (by omega) (by omega) hdim (by omega) (by omega) (by omega) (by omega)
          (by omega) (by omega)
        rw [hmk]
        have hrd : realDateInRange name := by
          unfold realDateInRange
          rw [← hY, ← hM, ← hD]
          exact ⟨h1, h2, h3, h4, h5, hdim⟩
        rw [if_pos hrd]
        rw [if_neg (by simp : ¬ ((Y : Int) ≠ Y ∨ (M - 1 : Int) ≠ M - 1 ∨ (D : Int) ≠ D))]
      · have hmk := jsMakeDate_month_overflow Y (M - 1) D (by omega) (by omega)
          (by omega) (by omega) (by omega)
        have hnr : ¬ realDateInRange name := by
          unfold realDateInRange
          rw [← hY, ← hM, ← hD]
          omega
        rw [if_neg hnr]
        rw [if_pos (Or.inr (Or.inl (by omega)))]
  · rw [if_neg hs]
    unfold startsWithEightDigits at hs
    simp only [parseAlbumDate]
    rw [if_neg hs]

/-- C2 counterexample: the nine-digit name `190001011` is accepted as
valid by `parseAlbumDate` (the regex takes its first eight digits), yet it
does not begin with exactly eight ASCII digits, refuting the claimed
equivalence. -/
theorem parseAlbumDate_nine_digits :
    (parseAlbumDate nineDigitName).isValid = true ∧
    ¬ exactlyEightDigitStart nineDigitName := by decide

/-- C2 amended. `parseAlbumDate(s).isValid` is true iff `s` begins with
at least eight ASCII digits whose first eight, read as `YYYYMMDD`, form a
real Gregorian calendar date with year in `[1900, 2100]`; when the
eight-digit prefix is syntactically present but the date is rejected, the
result still carries the raw eight-digit prefix with `isValid = false`;
and a valid result carries that prefix as well. -/
theorem parseAlbumDate_spec (name : List Char) :
    ((parseAlbumDate name).isValid = true ↔
      startsWithEightDigits name ∧ realDateInRange name) ∧
    (startsWithEightDigits name → ¬ realDateInRange name →
      parseAlbumDate name = ⟨none, some (name.take 8), false⟩) ∧
    ((parseAlbumDate name).isValid = true →
      (parseAlbumDate name).dateString = some (name.take 8)) := by
  rw [parseAlbumDate_eq name]
  by_cases hs : startsWithEightDigits name
  · rw [if_pos hs]
    by_cases hr : realDateInRange name
    · rw [if_pos hr]
      refine ⟨by simp [hs, hr], ?_, ?_⟩
      · intro _ h
        exact absurd hr h
      · intro _
        rfl
    · rw [if_neg hr]
      refine ⟨by simp [hr], ?_, by intro h; cases h⟩
      intro _ _
      rfl
  · rw [if_neg hs]
    exact ⟨by simp [hs], by intro h; exact absurd h hs, by intro h; cases h⟩

/-- C2 witness: `20230231 x` has the syntactic prefix but no real date
(no February 31), and the parse carries the raw prefix with
`isValid = false`. -/
theorem parseAlbumDate_spec_witness :
    parseAlbumDate ("20230231 x".toList) =
      ⟨none, some ("20230231".toList), false⟩ := by
  have h := (parseAlbumDate_spec ("20230231 x".toList)).2.1 (by decide) (by decide)
  exact h.trans (by decide)

lemma digitVal_digitChar (k : Nat) (hk : k < 10) : digitVal (digitChar k) = k := by
  interval_cases k <;> decide

lemma isDigit_digitChar (k : Nat) (hk : k < 10) : (digitChar k).isDigit = true := by
  interval_cases k <;> decide

lemma digitsRev_zero (fuel : Nat) : digitsRev fuel 0 = [] := by
  cases fuel <;> simp [digitsRev]

lemma digitsRev_pos (fuel n : Nat) (hf : 1 ≤ fuel) (hn : 1 ≤ n) :
    digitsRev fuel n = n % 10 :: digitsRev (fuel - 1) (n / 10) := by
  obtain ⟨f, rfl⟩ : ∃ f, fuel = f + 1 := ⟨fuel - 1, by omega⟩
  simp only [digitsRev]
  rw [if_neg (by omega)]
  simp

lemma natToChars_one_digit (n : Nat) (h : n ≤ 9) :
    natToChars n = [digitChar n] := by
  rcases Nat.eq_zero_or_pos n with h0 | h0
  · subst h0; decide
  · unfold natToChars
    rw [if_neg (by omega)]
    rw [digitsRev_pos n n (by omega) (by omega)]
    rw [show n / 10 = 0 from by omega, digitsRev_zero]
    rw [show n % 10 = n from by omega]
    rfl

lemma natToChars_two_digit (n : Nat) (h1 : 10 ≤ n) (h2 : n ≤ 99) :
    natToChars n = [digitChar (n / 10), digitChar (n % 10)] := by
  unfold natToChars
  rw [if_neg (by omega)]
  rw [digitsRev_pos n n (by omega) (by omega)]
  rw [digitsRev_pos (n - 1) (n / 10) (by omega) (by omega)]
  rw [show n / 10 / 10 = 0 from by omega, digitsRev_zero]
  rw [show n / 10 % 10 = n / 10 from by omega]
  rfl

lemma natToChars_four_digit (n : Nat) (h1 : 1000 ≤ n) (h2 : n ≤ 9999) :
    natToChars n =
      [digitChar (n / 1000), digitChar (n / 100 % 10),
       digitChar (n / 10 % 10), digitChar (n % 10)] := by
  unfold natToChars
  rw [if_neg (by omega)]
  rw [digitsRev_pos n n (by omega) (by omega)]
  rw [digitsRev_pos (n - 1) (n / 10) (by omega) (by omega)]
  rw [digitsRev_pos (n - 1 - 1) (n / 10 / 10) (by omega) (by omega)]
  rw [digitsRev_pos (n - 1 - 1 - 1) (n / 10 / 10 / 10) (by omega) (by omega)]
  rw [show n / 10 / 10 / 10 / 10 = 0 from by omega, digitsRev_zero]
  rw [show n / 10 / 10 / 10 % 10 = n / 1000 from by omega]
  rw [show n / 10 / 10 % 10 = n / 100 % 10 from by omega]
  rfl

lemma pad2_natToChars (m : Nat) (h : m ≤ 99) :
    padStart2 (natToChars m) = [digitChar (m / 10), digitChar (m % 10)] := by
  rcases le_or_lt m 9 with h9 | h9
  · rw [natToChars_one_digit m h9]
    rw [show m / 10 = 0 from by omega, show m % 10 = m from by omega]
    rfl
  · rw [natToChars_two_digit m (by omega) h]
    rfl

lemma digitsToNat_two (a b : Nat) (ha : a < 10) (hb : b < 10) :
    digitsToNat [digitChar a, digitChar b] = a * 10 + b := by
  simp only [digitsToNat, List.foldl]
  rw [digitVal_digitChar a ha, digitVal_digitChar b hb]
  omega

lemma digitsToNat_four (a b c e : Nat) (ha : a < 10) (hb : b < 10)
    (hc : c < 10) (he : e < 10) :
    digitsToNat [digitChar a, digitChar b, digitChar c, digitChar e] =
      ((a * 10 + b) * 10 + c) * 10 + e := by
  simp only [digitsToNat, List.foldl]
  rw [digitVal_digitChar a ha, digitVal_digitChar b hb, digitVal_digitChar c hc,
    digitVal_digitChar e he]
  omega

/-- C10 amended. For every date value with a four-digit year (1000-9999),
parsing the `formatExifDate` text with the EXIF date-string parser used by
`readExifData` succeeds and yields a date with the same year, month, day,
hour, minute and second (milliseconds are dropped). -/
theorem formatExif_roundTrip (d : JSDate) (hv : d.Valid) (hy1 : 1000 ≤ d.year)
    (hy2 : d.year ≤ 9999) :
    parseExifDate (formatExifDate d) =
      some ⟨d.year, d.month, d.day, d.hours, d.minutes, d.seconds, 0⟩ := by
  obtain ⟨hm0, hm1, hd0, hd1, hh0, hh1, hmi0, hmi1, hs0, hs1, hms0, hms1⟩ := hv
  have hdim := dim0_le d.year d.month
  have hY : intToChars d.year =
      [digitChar (d.year.natAbs / 1000), digitChar (d.year.natAbs / 100 % 10),
       digitChar (d.year.natAbs / 10 % 10), digitChar (d.year.natAbs % 10)] := by
    unfold intToChars
    rw [if_neg (by omega)]
    exact natToChars_four_digit _ (by omega) (by omega)
  have hM : padStart2 (intToChars (d.month + 1)) =
      [digitChar ((d.month + 1).natAbs / 10), digitChar ((d.month + 1).natAbs % 10)] := by
    unfold intToChars
    rw [if_neg (by omega)]
    exact pad2_natToChars _ (by omega)
  have hD : padStart2 (intToChars d.day) =
      [digitChar (d.day.natAbs / 10), digitChar (d.day.natAbs % 10)] := by
    unfold intToChars
    rw [if_neg (by omega)]
    exact pad2_natToChars _ (by omega)
  have hH : padStart2 (intToChars d.hours) =
      [digitChar (d.hours.natAbs / 10), digitChar (d.hours.natAbs % 10)] := by
    unfold intToChars
    rw [if_neg (by omega)]
    exact pad2_natToChars _ (by omega)
  have hMi : padStart2 (intToChars d.minutes) =
      [digitChar (d.minutes.natAbs / 10), digitChar (d.minutes.natAbs % 10)] := by
    unfold intToChars
    rw [if_neg (by omega)]
    exact pad2_natToChars _ (by omega)
  have hS : padStart2 (intToChars d.seconds) =
      [digitChar (d.seconds.natAbs / 10), digitChar (d.seconds.natAbs % 10)] := by
    unfold intToChars
    rw [if_neg (by omega)]
    exact pad2_natToChars _ (by omega)
  have i1 : (digitChar (d.year.natAbs / 1000)).isDigit = true :=
    isDigit_digitChar _ (by omega)
  have i2 : (digitChar (d.year.natAbs / 100 % 10)).isDigit = true :=
    isDigit_digitChar _ (by omega)
  have i3 : (digitChar (d.year.natAbs / 10 % 10)).isDigit = true :=
    isDigit_digitChar _ (by omega)
  have i4 : (digitChar (d.year.natAbs % 10)).isDigit = true :=
    isDigit_digitChar _ (by omega)
  have i5 : (digitChar ((d.month + 1).natAbs / 10)).isDigit = true :=
    isDigit_digitChar _ (by omega)
  have i6 : (digitChar ((d.month + 1).natAbs % 10)).isDigit = true :=
    isDigit_digitChar _ (by omega)
  have i7 : (digitChar (d.day.natAbs / 10)).isDigit = true :=
    isDigit_digitChar _ (by omega)
  have i8 : (digitChar (d.day.natAbs % 10)).isDigit = true :=
    isDigit_digitChar _ (by omega)
  have i9 : (digitChar (d.hours.natAbs / 10)).isDigit = true :=
    isDigit_digitChar _ (by omega)
  have i10 : (digitChar (d.hours.natAbs % 10)).isDigit = true :=
    isDigit_digitChar _ (by omega)
  have i11 : (digitChar (d.minutes.natAbs / 10)).isDigit = true :=
    isDigit_digitChar _ (by omega)
  have i12 : (digitChar (d.minutes.natAbs % 10)).isDigit = true :=
    isDigit_digitChar _ (by omega)
  have i13 : (digitChar (d.seconds.natAbs / 10)).isDigit = true :=
    isDigit_digitChar _ (by omega)
  have i14 : (digitChar (d.seconds.natAbs % 10)).isDigit = true :=
    isDigit_digitChar _ (by omega)
  simp only [formatExifDate, hY, hM, hD, hH, hMi, hS, List.cons_append,
    List.nil_append]
  simp only [parseExifDate]
  rw [if_pos (by simp [i1, i2, i3, i4, i5, i6, i7, i8, i9, i10, i11, i12, i13, i14])]
  rw [digitsToNat_four _ _ _ _ (by omega) (by omega) (by omega) (by omega)]
  rw [digitsToNat_two ((d.month + 1).natAbs / 10) ((d.month + 1).natAbs % 10)
    (by omega) (by omega)]
  rw [digitsToNat_two (d.day.natAbs / 10) (d.day.natAbs % 10) (by omega) (by omega)]
  rw [digitsToNat_two (d.hours.natAbs / 10) (d.hours.natAbs % 10) (by omega) (by omega)]
  rw [digitsToNat_two (d.minutes.natAbs / 10) (d.minutes.natAbs % 10) (by omega) (by omega)]
  rw [digitsToNat_two (d.seconds.natAbs / 10) (d.seconds.natAbs % 10) (by omega) (by omega)]
  rw [show ((d.year.natAbs / 1000 * 10 + d.year.natAbs / 100 % 10) * 10 +
      d.year.natAbs / 10 % 10) * 10 + d.year.natAbs % 10 = d.year.natAbs from by omega]
  rw [show (d.month + 1).natAbs / 10 * 10 + (d.month + 1).natAbs % 10 =
      (d.month + 1).natAbs from by omega]
  rw [show d.day.natAbs / 10 * 10 + d.day.natAbs % 10 = d.day.natAbs from by omega]
  rw [show d.hours.natAbs / 10 * 10 + d.hours.natAbs % 10 = d.hours.natAbs from by omega]
  rw [show d.minutes.natAbs / 10 * 10 + d.minutes.natAbs % 10 = d.minutes.natAbs from by omega]
  rw [show d.seconds.natAbs / 10 * 10 + d.seconds.natAbs % 10 = d.seconds.natAbs from by omega]
  rw [Int.natAbs_of_nonneg (by omega : (0 : Int) ≤ d.year)]
  rw [Int.natAbs_of_nonneg (by omega : (0 : Int) ≤ d.month + 1)]
  rw [Int.natAbs_of_nonneg (by omega : (0 : Int) ≤ d.day)]
  rw [Int.natAbs_of_nonneg (by omega : (0 : Int) ≤ d.hours)]
  rw [Int.natAbs_of_nonneg (by omega : (0 : Int) ≤ d.minutes)]
  rw [Int.natAbs_of_nonneg (by omega : (0 : Int) ≤ d.seconds)]
  rw [show d.month + 1 - 1 = d.month from by omega]
  rw [jsMakeDate_normal d.year d.month d.day d.hours d.minutes d.seconds
    (by omega) hm0 hm1 hd0 hd1 hh0 hh1 hmi0 hmi1 hs0 hs1]

/-- C10 counterexample: the valid date 0999-01-02 03:04:05 formats to a
three-digit-year string of 18 characters, which misses the anchored
four-digit EXIF pattern, so the parse does not succeed. -/
theorem formatExif_threeDigitYear_fails :
    threeDigitYear.Valid ∧ parseExifDate (formatExifDate threeDigitYear) = none := by
  decide

/-- C10 witness: the round trip at 2020-06-15 03:04:05. -/
theorem formatExif_roundTrip_witness :
    parseExifDate (formatExifDate roundTripSample) =
      some ⟨2020, 5, 15, 3, 4, 5, 0⟩ := by
  have h := formatExif_roundTrip roundTripSample (by decide) (by decide) (by decide)
  exact h.trans (by decide)

end PhotoFixer
